import Mathlib

/-!
Verification of the rustility utility library against its specification.

The library provides three facilities:
* the `result_or_option!` macro (src/macros.rs), which wraps a block or
  expression in an immediately-invoked nullary closure (sync forms) or in an
  `async` block that is awaited immediately (async forms);
* the `Discard` trait (src/traits.rs), whose `discard` method consumes a
  `Result` or `Option` and returns unit;
* the `AsyncMap` trait (src/traits.rs), whose `async_map` method applies an
  asynchronous transform to the held value of a `Some`/`Ok` container and
  leaves `None`/`Err` untouched.

Embedding. Effectful (possibly panicking) computations are modelled as
state-transformers that may abort with a panic payload:
`Comp P σ α = σ → Except P (α × σ)`. The state `σ` records side effects
(instantiated with a `Nat` counter to count evaluations/invocations), and
`Except.error p` models a panic propagating through the host's asynchronous
failure-propagation mechanism. A Rust `Future` is a pending such computation;
`.await` runs it inside the enclosing async context, resurfacing any failure.
Rust's `Result<T, E>` is `Except E T`; `Option<T>` is `Option T`.
-/

universe u v w x

/-- An effectful computation over effect state `σ` that either completes with
a value of `α` and an updated state, or aborts with a failure payload `P`. -/
def Comp (P : Type u) (σ : Type v) (α : Type w) : Type (max u v w) :=
  σ → Except P (α × σ)

/-- A computation that immediately completes with `a`, touching no state. -/
def Comp.pure {P : Type u} {σ : Type v} {α : Type w} (a : α) : Comp P σ α :=
  fun s => Except.ok (a, s)

/-- A pending asynchronous computation (Rust's `Future`). -/
def Future (P : Type u) (σ : Type v) (α : Type w) : Type (max u v w) :=
  Comp P σ α

/-- Awaiting a future runs it in the enclosing async context (Rust `.await`). -/
def Future.await {P : Type u} {σ : Type v} {α : Type w}
    (fut : Future P σ α) : Comp P σ α :=
  fut

/-- A future that is immediately ready with value `a`
(Rust `Box::pin(async move { a })`). -/
def Future.ready {P : Type u} {σ : Type v} {α : Type w} (a : α) : Future P σ α :=
  fun s => Except.ok (a, s)

/-- Building an `async` block from its body: the body becomes a pending
computation (Rust `async { body }` / `async body_block`). -/
def async_mk {P : Type u} {σ : Type v} {α : Type w}
    (body : Comp P σ α) : Future P σ α :=
  body

namespace result_or_option

/-- Expansion of `result_or_option!(async { body })` on a block:
`async $e.await`, i.e. `async { body }.await`. From src/macros.rs. -/
def async_block {P : Type u} {σ : Type v} {α : Type w}
    (e : Comp P σ α) : Comp P σ α :=
  Future.await (async_mk e)

/-- Expansion of `result_or_option!(async expr)` on an expression:
`async { $e }.await`. From src/macros.rs. -/
def async_expr {P : Type u} {σ : Type v} {α : Type w}
    (e : Comp P σ α) : Comp P σ α :=
  Future.await (async_mk e)

/-- Expansion of `result_or_option!({ body })` on a block:
`(|| $e)()`, an immediately-invoked nullary closure. From src/macros.rs. -/
def sync_block {P : Type u} {σ : Type v} {α : Type w}
    (e : Comp P σ α) : Comp P σ α :=
  (fun _ : Unit => e) ()

/-- Expansion of `result_or_option!(expr)` on an expression:
`(|| $e)()`. From src/macros.rs. -/
def sync_expr {P : Type u} {σ : Type v} {α : Type w}
    (e : Comp P σ α) : Comp P σ α :=
  (fun _ : Unit => e) ()

end result_or_option

/-- Modelled from the spec's contract wording (section 4.1): evaluate the
block/expression as the body of a freshly created nullary callable that is
invoked immediately (synchronous case). -/
def spec_sync_wrapper {P : Type u} {σ : Type v} {α : Type w}
    (e : Comp P σ α) : Comp P σ α :=
  (fun _ : Unit => e) ()

/-- Modelled from the spec's contract wording (section 4.1): evaluate the
block/expression as the body of a freshly created nullary asynchronous
callable whose completion is awaited immediately (asynchronous case). -/
def spec_async_wrapper {P : Type u} {σ : Type v} {α : Type w}
    (e : Comp P σ α) : Comp P σ α :=
  Future.await ((fun _ : Unit => async_mk e) ())

/-- The `Discard` impl for `Result<T, E>` (src/traits.rs):
`let _ = self; drop(self);` returns unit. -/
def Except.discard {E : Type u} {T : Type v} (self : Except E T) : Unit :=
  let _ := self
  ()

/-- The `Discard` impl for `Option<T>` (src/traits.rs):
`let _ = self; drop(self);` returns unit. -/
def Option.discard {T : Type v} (self : Option T) : Unit :=
  let _ := self
  ()

/-- The `AsyncMap` impl for `Option<T>` (src/traits.rs): on `Some(t)`, call
`map t`, await the resulting future (propagating any failure raised inside
it), and rewrap as `Some`; on `None`, return `None` without calling `map`. -/
def Option.async_map {T : Type u} {U : Type v} {P : Type w} {σ : Type x}
    (self : Option T) (map : T → Future P σ U) : Comp P σ (Option U) :=
  match self with
  | some t => fun s =>
      match Future.await (map t) s with
      | Except.ok (u, s') => Except.ok (some u, s')
      | Except.error p => Except.error p
  | none => fun s => Except.ok (none, s)

/-- The `AsyncMap` impl for `Result<T, E>` (src/traits.rs): on `Ok(t)`, call
`map t`, await the resulting future (propagating any failure raised inside
it), and rewrap as `Ok`; on `Err(e)`, return `Err(e)` without calling `map`. -/
def Except.async_map {T E U P σ : Type*}
    (self : Except E T) (map : T → Future P σ U) : Comp P σ (Except E U) :=
  match self with
  | Except.ok t => fun s =>
      match Future.await (map t) s with
      | Except.ok (u, s') => Except.ok (Except.ok u, s')
      | Except.error p => Except.error p
  | Except.error e => fun s => Except.ok (Except.error e, s)

/-! Theorems settling the specification claims. -/

/-- C1: in each of the four forms (sync-block, sync-expression, async-block,
async-expression), the Propagation-Wrapper's expansion produces, on every
state, the same outcome as the spec's immediately-invoked nullary (async)
callable, and both equal one evaluation of the wrapped code itself. -/
theorem result_or_option_refines_iife {P : Type u} {σ : Type v} {α : Type w}
    (e : Comp P σ α) (s : σ) :
    result_or_option.sync_block e s = spec_sync_wrapper e s ∧
    result_or_option.sync_expr e s = spec_sync_wrapper e s ∧
    result_or_option.async_block e s = spec_async_wrapper e s ∧
    result_or_option.async_expr e s = spec_async_wrapper e s ∧
    spec_sync_wrapper e s = e s ∧
    spec_async_wrapper e s = e s :=
  ⟨rfl, rfl, rfl, rfl, rfl, rfl⟩

/-- C2: on a present container `some v` (resp. a success container `ok v`),
`async_map` performs exactly the effect of one call `map v` awaited (first
clause: the outcome is that single await's outcome, rewrapped), and in
particular with an instrumented transform that yields `g v` and bumps an
invocation counter once, it returns `some (g v)` (resp. `ok (g v)`) with the
counter incremented exactly once. -/
theorem async_map_some_ok_applies_once {T : Type u} {U : Type u}
    (v : T) (map : T → Future Nat Nat U) (g : T → U) (n : Nat) :
    Option.async_map (some v) map n =
      Except.map (fun us : U × Nat => (some us.1, us.2)) (Future.await (map v) n) ∧
    Except.async_map (Except.ok v : Except Nat T) map n =
      Except.map (fun us : U × Nat => (Except.ok us.1, us.2)) (Future.await (map v) n) ∧
    Option.async_map (some v)
        ((fun t k => Except.ok (g t, k + 1)) : T → Future Nat Nat U) n =
      Except.ok (some (g v), n + 1) ∧
    Except.async_map (Except.ok v : Except Nat T)
        ((fun t k => Except.ok (g t, k + 1)) : T → Future Nat Nat U) n =
      Except.ok (Except.ok (g v), n + 1) := by
  refine ⟨?_, ?_, rfl, rfl⟩
  · simp only [Option.async_map]
    cases Future.await (map v) n with
    | ok us => cases us; rfl
    | error p => rfl
  · simp only [Except.async_map]
    cases Future.await (map v) n with
    | ok us => cases us; rfl
    | error p => rfl

/-- C3: on an absent container `none` (resp. a failure container `error e`),
`async_map` never invokes the transform (the result is the same for every
transform and the effect state is untouched) and returns the absent
container (resp. the failure container with its payload `e` unchanged). -/
theorem async_map_none_err_frame {T : Type u} {U : Type v} {E : Type w}
    {P σ : Type x} (map : T → Future P σ U) (e : E) (s : σ) :
    Option.async_map (none : Option T) map s = Except.ok (none, s) ∧
    Except.async_map (Except.error e : Except E T)
        (fun t => (map t : Future P σ U)) s = Except.ok (Except.error e, s) :=
  ⟨rfl, rfl⟩

/-- C4: wrapping code that evaluates to success `ok v` with the
Propagation-Wrapper yields `ok v`, and wrapping code that evaluates to
failure `error e` yields `error e`, in all four (sync and async) forms. -/
theorem result_or_option_result_cases {T : Type u} {E : Type v}
    {P : Type w} {σ : Type x} (v : T) (e : E) (s : σ) :
    result_or_option.sync_block (Comp.pure (Except.ok v) : Comp P σ (Except E T)) s =
      Except.ok (Except.ok v, s) ∧
    result_or_option.sync_expr (Comp.pure (Except.ok v) : Comp P σ (Except E T)) s =
      Except.ok (Except.ok v, s) ∧
    result_or_option.async_block (Comp.pure (Except.ok v) : Comp P σ (Except E T)) s =
      Except.ok (Except.ok v, s) ∧
    result_or_option.async_expr (Comp.pure (Except.ok v) : Comp P σ (Except E T)) s =
      Except.ok (Except.ok v, s) ∧
    result_or_option.sync_block (Comp.pure (Except.error e) : Comp P σ (Except E T)) s =
      Except.ok (Except.error e, s) ∧
    result_or_option.sync_expr (Comp.pure (Except.error e) : Comp P σ (Except E T)) s =
      Except.ok (Except.error e, s) ∧
    result_or_option.async_block (Comp.pure (Except.error e) : Comp P σ (Except E T)) s =
      Except.ok (Except.error e, s) ∧
    result_or_option.async_expr (Comp.pure (Except.error e) : Comp P σ (Except E T)) s =
      Except.ok (Except.error e, s) :=
  ⟨rfl, rfl, rfl, rfl, rfl, rfl, rfl, rfl⟩

/-- C5: wrapping code that evaluates to `some v` with the Propagation-Wrapper
yields `some v`, and wrapping code that evaluates to `none` yields `none`,
in all four (sync and async) forms. -/
theorem result_or_option_option_cases {T : Type u}
    {P : Type w} {σ : Type x} (v : T) (s : σ) :
    result_or_option.sync_block (Comp.pure (some v) : Comp P σ (Option T)) s =
      Except.ok (some v, s) ∧
    result_or_option.sync_expr (Comp.pure (some v) : Comp P σ (Option T)) s =
      Except.ok (some v, s) ∧
    result_or_option.async_block (Comp.pure (some v) : Comp P σ (Option T)) s =
      Except.ok (some v, s) ∧
    result_or_option.async_expr (Comp.pure (some v) : Comp P σ (Option T)) s =
      Except.ok (some v, s) ∧
    result_or_option.sync_block (Comp.pure (none : Option T) : Comp P σ (Option T)) s =
      Except.ok (none, s) ∧
    result_or_option.sync_expr (Comp.pure (none : Option T) : Comp P σ (Option T)) s =
      Except.ok (none, s) ∧
    result_or_option.async_block (Comp.pure (none : Option T) : Comp P σ (Option T)) s =
      Except.ok (none, s) ∧
    result_or_option.async_expr (Comp.pure (none : Option T) : Comp P σ (Option T)) s =
      Except.ok (none, s) :=
  ⟨rfl, rfl, rfl, rfl, rfl, rfl, rfl, rfl⟩

/-- C6: `discard` applied to any success, failure, present, or absent
container consumes it and returns unit; being a total function into `Unit`,
it raises no failure of its own, whatever the payloads. -/
theorem discard_returns_unit {T : Type u} {E : Type v}
    (r : Except E T) (o : Option T) :
    Except.discard r = () ∧ Option.discard o = () :=
  ⟨rfl, rfl⟩

/-- C7: every form of the Propagation-Wrapper, applied to arbitrary wrapped
code `e` and run on an arbitrary effect state, produces exactly the outcome
of a single evaluation of `e` on that state: the effects are exactly those of
one evaluation, and any failure flowing out is exactly the failure `e`
produced, unchanged. -/
theorem result_or_option_effect_identity {P : Type u} {σ : Type v} {α : Type w}
    (e : Comp P σ α) (s : σ) :
    result_or_option.sync_block e s = e s ∧
    result_or_option.sync_expr e s = e s ∧
    result_or_option.async_block e s = e s ∧
    result_or_option.async_expr e s = e s :=
  ⟨rfl, rfl, rfl, rfl⟩

/-- C8: `async_map` introduces no failure of its own. A failure raised inside
the transform's awaited computation propagates out unchanged (first two
clauses), and conversely any failure flowing out of `async_map` is exactly a
failure produced by awaiting the transform on the held value (last two
clauses). -/
theorem async_map_failure_propagation {T U P σ : Type*} {T₂ E U₂ P₂ σ₂ : Type*}
    (v : T) (o : Option T) (map : T → Future P σ U) (s : σ) (p : P)
    (w : T₂) (r : Except E T₂) (map₂ : T₂ → Future P₂ σ₂ U₂) (s₂ : σ₂) (p₂ : P₂) :
    (Future.await (map v) s = Except.error p →
      Option.async_map (some v) map s = Except.error p) ∧
    (Future.await (map₂ w) s₂ = Except.error p₂ →
      Except.async_map (Except.ok w : Except E T₂) map₂ s₂ = Except.error p₂) ∧
    (Option.async_map o map s = Except.error p →
      ∃ t, o = some t ∧ Future.await (map t) s = Except.error p) ∧
    (Except.async_map r map₂ s₂ = Except.error p₂ →
      ∃ t, r = Except.ok t ∧ Future.await (map₂ t) s₂ = Except.error p₂) := by
  refine ⟨?_, ?_, ?_, ?_⟩
  · intro h
    simp only [Option.async_map]
    rw [h]
  · intro h
    simp only [Except.async_map]
    rw [h]
  · cases o with
    | none =>
      intro h
      simp only [Option.async_map] at h
      exact Except.noConfusion h
    | some t =>
      simp only [Option.async_map]
      cases hm : Future.await (map t) s with
      | ok us =>
        cases us with
        | mk u s' =>
          intro h
          exact Except.noConfusion h
      | error q =>
        intro h
        refine ⟨t, rfl, ?_⟩
        rw [hm]
        simpa using h
  · cases r with
    | error e =>
      intro h
      simp only [Except.async_map] at h
      exact Except.noConfusion h
    | ok t =>
      simp only [Except.async_map]
      cases hm : Future.await (map₂ t) s₂ with
      | ok us =>
        cases us with
        | mk u s' =>
          intro h
          exact Except.noConfusion h
      | error q =>
        intro h
        refine ⟨t, rfl, ?_⟩
        rw [hm]
        simpa using h

/-- Witness for C8 at concrete inputs: a transform whose awaited computation
fails with "boom" makes `async_map` on `some 1` / `ok 1` surface exactly that
failure, and that failure indeed originated in the transform. -/
theorem async_map_failure_propagation_witness :
    Option.async_map (some 1)
        ((fun _ _ => Except.error "boom") : Nat → Future String Nat Nat) 0 =
      Except.error "boom" ∧
    Except.async_map (Except.ok 1 : Except Unit Nat)
        ((fun _ _ => Except.error "boom") : Nat → Future String Nat Nat) 0 =
      Except.error "boom" ∧
    (∃ t, (some 1 : Option Nat) = some t ∧
      Future.await (((fun _ _ => Except.error "boom") : Nat → Future String Nat Nat) t) 0 =
        Except.error "boom") ∧
    (∃ t, (Except.ok 1 : Except Unit Nat) = Except.ok t ∧
      Future.await (((fun _ _ => Except.error "boom") : Nat → Future String Nat Nat) t) 0 =
        Except.error "boom") := by
  have h := async_map_failure_propagation 1 (some 1)
      ((fun _ _ => Except.error "boom") : Nat → Future String Nat Nat) 0 "boom"
      1 (Except.ok 1 : Except Unit Nat)
      ((fun _ _ => Except.error "boom") : Nat → Future String Nat Nat) 0 "boom"
  exact ⟨h.1 rfl, h.2.1 rfl, h.2.2.1 rfl, h.2.2.2 rfl⟩

/-- C9: `async_map` preserves the container's variant: whenever it completes
with an output container, the output is present iff the input was present,
and a success iff the input was a success (hence absent iff absent and a
failure iff a failure). -/
theorem async_map_preserves_variant {T U P σ : Type*} {T₂ E U₂ P₂ σ₂ : Type*}
    (o : Option T) (map : T → Future P σ U) (s : σ) (ro : Option U) (s' : σ)
    (r : Except E T₂) (map₂ : T₂ → Future P₂ σ₂ U₂) (s₂ : σ₂)
    (rr : Except E U₂) (s₂' : σ₂) :
    (Option.async_map o map s = Except.ok (ro, s') → ro.isSome = o.isSome) ∧
    (Except.async_map r map₂ s₂ = Except.ok (rr, s₂') → rr.isOk = r.isOk) := by
  constructor
  · cases o with
    | none =>
      intro h
      simp only [Option.async_map, Except.ok.injEq, Prod.mk.injEq] at h
      exact (congrArg Option.isSome h.1.symm).trans rfl
    | some t =>
      simp only [Option.async_map]
      cases Future.await (map t) s with
      | ok us =>
        cases us with
        | mk u k =>
          intro h
          simp only [Except.ok.injEq, Prod.mk.injEq] at h
          exact (congrArg Option.isSome h.1.symm).trans rfl
      | error q =>
        intro h
        exact Except.noConfusion h
  · cases r with
    | error e =>
      intro h
      simp only [Except.async_map, Except.ok.injEq, Prod.mk.injEq] at h
      exact (congrArg Except.isOk h.1.symm).trans rfl
    | ok t =>
      simp only [Except.async_map]
      cases Future.await (map₂ t) s₂ with
      | ok us =>
        cases us with
        | mk u k =>
          intro h
          simp only [Except.ok.injEq, Prod.mk.injEq] at h
          exact (congrArg Except.isOk h.1.symm).trans rfl
      | error q =>
        intro h
        exact Except.noConfusion h

/-- Witness for C9 at concrete inputs: mapping `t + 1` over `some 3` / `ok 3`
completes with `some 4` / `ok 4`, whose variant matches the input's. -/
theorem async_map_preserves_variant_witness :
    (some 4 : Option Nat).isSome = (some 3 : Option Nat).isSome ∧
    (Except.ok 4 : Except Unit Nat).isOk = (Except.ok 3 : Except Unit Nat).isOk := by
  have h := async_map_preserves_variant (some 3)
      ((fun t => Future.ready (t + 1)) : Nat → Future String Nat Nat) 0 (some 4) 0
      (Except.ok 3 : Except Unit Nat)
      ((fun t => Future.ready (t + 1)) : Nat → Future String Nat Nat) 0
      (Except.ok 4) 0
  exact ⟨h.1 rfl, h.2 rfl⟩

/-- C10: identity law: applying `async_map` with the transform that returns
an immediately-ready computation yielding its argument unchanged returns a
container equal to the input, for present, absent, success and failure
containers alike, with the effect state untouched. -/
theorem async_map_identity_law {T E P σ : Type*} {P₂ σ₂ : Type*}
    (o : Option T) (r : Except E T) (s : σ) (s₂ : σ₂) :
    Option.async_map o ((fun x => Future.ready x) : T → Future P σ T) s =
      Except.ok (o, s) ∧
    Except.async_map r ((fun x => Future.ready x) : T → Future P₂ σ₂ T) s₂ =
      Except.ok (r, s₂) := by
  constructor
  · cases o <;> rfl
  · cases r <;> rfl
